import Mathlib

/-!
Shallow embedding of the deal-discovery bot (scraper.py, database.py,
run_once.py, main.py) together with proofs checking the repository's
natural-language specification against the code.

Modelling conventions:
* Python `float` prices and timestamps are modelled as exact rationals `ℚ`;
  timestamps are seconds since the epoch.
* Python `None` is `Option.none`; Python truthiness (`not x` true for both
  `None` and `0`, and for the empty string) is spelled out at each use site.
* the TinyDB store is a list of `PostRecord`s; `db.get(Q.asin == a)` is
  `List.find?`, and `db.upsert` updates every matching document or appends.
* HTTP traffic is an oracle `ℕ → HttpAttempt` giving the response to each
  successive attempt; the fetch loop is instrumented with the number of
  attempts it consumed, which is directly observable in the code's loop.
-/

namespace AmazonBot

/-- Does `pat` occur at the very start of `s`? -/
def startsWithChars : List Char → List Char → Bool
  | [], _ => true
  | _ :: _, [] => false
  | a :: as, b :: bs => a = b && startsWithChars as bs

/-- Does `pat` occur anywhere inside `s`? -/
def containsChars (pat : List Char) : List Char → Bool
  | [] => startsWithChars pat []
  | s@(_ :: rest) => startsWithChars pat s || containsChars pat rest

/-- Python's `needle in hay` substring test. -/
def strContains (hay needle : String) : Bool :=
  containsChars needle.data hay.data

/-- Python `str.strip()`: drop whitespace from both ends. -/
def pyStrip (s : String) : String :=
  ⟨((s.data.dropWhile Char.isWhitespace).reverse.dropWhile Char.isWhitespace).reverse⟩

/-- Python 3 `round` with no digits argument: round half to even, on an
exact rational. -/
def pyRound (q : ℚ) : ℤ :=
  if q - ⌊q⌋ < 1/2 then ⌊q⌋
  else if q - ⌊q⌋ > 1/2 then ⌊q⌋ + 1
  else if ⌊q⌋ % 2 = 0 then ⌊q⌋ else ⌊q⌋ + 1

/-- Model of `scraper.compute_discount`.  The first guard is Python's
`if not original_price or not deal_price` (true for `None` and for `0`),
then `<= 0` checks, then `deal_price >= original_price`. -/
def compute_discount : Option ℚ → Option ℚ → Option ℤ
  | none, _ => none
  | some _, none => none
  | some op, some dp =>
    if op = 0 ∨ dp = 0 then none
    else if op ≤ 0 ∨ dp ≤ 0 then none
    else if dp ≥ op then none
    else some (pyRound ((op - dp) / op * 100))

/-- The discount rule in the spec's words (for claim C1): `none` unless
both prices are present, both strictly positive and
`originalPrice > dealPrice`; then the rounded percentage. -/
def discountSpec : Option ℚ → Option ℚ → Option ℤ
  | some op, some dp =>
    if 0 < op ∧ 0 < dp ∧ dp < op then some (pyRound ((op - dp) / op * 100))
    else none
  | _, _ => none

/-- C1: for every pair of (optional) prices, `compute_discount` returns
`none` unless both prices are present, strictly positive, and the original
price exceeds the deal price; when those conditions hold it returns
`round((originalPrice - dealPrice) / originalPrice * 100)` (Python `round`,
half to even) as an integer. -/
theorem C1_compute_discount_matches_spec (op dp : Option ℚ) :
    compute_discount op dp = discountSpec op dp := by
  rcases op with _ | o
  · rfl
  rcases dp with _ | d
  · rfl
  simp only [compute_discount, discountSpec]
  by_cases hc : 0 < o ∧ 0 < d ∧ d < o
  · obtain ⟨ho, hd, hlt⟩ := hc
    rw [if_neg (by push_neg; exact ⟨ne_of_gt ho, ne_of_gt hd⟩),
      if_neg (by push_neg; exact ⟨ho, hd⟩), if_neg (not_le.mpr hlt),
      if_pos ⟨ho, hd, hlt⟩]
  · rw [if_neg hc]
    split_ifs with h1 h2 h3 <;> try rfl
    push_neg at h1 h2 h3
    exact absurd ⟨h2.1, h2.2, h3⟩ hc

/-- Model of `scraper._CAPTCHA_MARKERS`. -/
def CAPTCHA_MARKERS : List String :=
  ["enter the characters you see below",
   "api-services-support@amazon.com",
   "/errors/validatecaptcha"]

/-- Python `str.lower()` (ASCII-relevant part), character by character. -/
def lowerChars (s : List Char) : List Char :=
  s.map Char.toLower

/-- Model of `scraper._is_captcha_page`: lower-case the body and look for any of the
fixed marker phrases. -/
def is_captcha_page (html : String) : Bool :=
  CAPTCHA_MARKERS.any (fun m => containsChars m.data (lowerChars html.data))

/-- The response the network gives to one attempt of the fetch loop:
either a `requests.RequestException` (connection/timeout), or a page with a
status code and a body. -/
inductive HttpAttempt where
  | netErr : HttpAttempt
  | page (status : ℕ) (body : String) : HttpAttempt
deriving DecidableEq

/-- The result of `scraper.fetch_html`, instrumented with the number of
attempts the loop consumed (directly observable from the loop counter). -/
structure FetchResult where
  html : Option String
  err : Option String
  attempts : ℕ
deriving DecidableEq

/-- The body of `scraper.fetch_html`'s manual retry loop.  `used` is the
number of attempts already consumed (the attempt about to run is
`resp used`), `remaining` counts attempts still allowed.  On a network
exception or an HTTP status `>= 400` the loop continues; a captcha body
returns immediately; falling out of the loop returns `(None, "network")`. -/
def fetchGo (resp : ℕ → HttpAttempt) : ℕ → ℕ → FetchResult
  | used, 0 => ⟨none, some "network", used⟩
  | used, remaining + 1 =>
    match resp used with
    | .netErr => fetchGo resp (used + 1) remaining
    | .page status body =>
      if is_captcha_page body then ⟨none, some "captcha", used + 1⟩
      else if 400 ≤ status then fetchGo resp (used + 1) remaining
      else ⟨some body, none, used + 1⟩

/-- Model of `scraper.fetch_html`: run the loop for `config.MAX_REQUEST_RETRIES`
attempts against the response oracle `resp`. -/
def fetch_html (resp : ℕ → HttpAttempt) (maxRetries : ℕ) : FetchResult :=
  fetchGo resp 0 maxRetries

/-- An attempt whose outcome makes the fetch loop continue to the next
attempt: a network exception, or a non-captcha body with status `>= 400`. -/
def attemptRetries : HttpAttempt → Prop
  | .netErr => True
  | .page status body => 400 ≤ status ∧ is_captcha_page body = false

theorem fetchGo_captcha (resp : ℕ → HttpAttempt) :
    ∀ (i used remaining : ℕ), i < remaining →
    (∀ j < i, attemptRetries (resp (used + j))) →
    ∀ status body, resp (used + i) = .page status body →
    is_captcha_page body = true →
    fetchGo resp used remaining = ⟨none, some "captcha", used + i + 1⟩ := by
  intro i
  induction i with
  | zero =>
    intro used remaining h1 _ status body hresp hcap
    obtain ⟨r, rfl⟩ : ∃ r, remaining = r + 1 := ⟨remaining - 1, by omega⟩
    rw [Nat.add_zero] at hresp
    simp [fetchGo, hresp, hcap]
  | succ i ih =>
    intro used remaining h1 h2 status body hresp hcap
    obtain ⟨r, rfl⟩ : ∃ r, remaining = r + 1 := ⟨remaining - 1, by omega⟩
    have hr : i < r := by omega
    have h0 : attemptRetries (resp used) := by
      have := h2 0 (by omega)
      simpa using this
    have hrec : fetchGo resp (used + 1) r = ⟨none, some "captcha", (used + 1) + i + 1⟩ := by
      refine ih (used + 1) r hr ?_ status body ?_ hcap
      · intro j hj
        have := h2 (j + 1) (by omega)
        have harith : used + (j + 1) = used + 1 + j := by omega
        rwa [harith] at this
      · have harith : used + (i + 1) = used + 1 + i := by omega
        rwa [harith] at hresp
    cases hp : resp used with
    | netErr =>
      simp only [fetchGo, hp]
      rw [hrec]
      congr 1
      omega
    | page s b =>
      rw [hp] at h0
      simp only [fetchGo, hp]
      rw [if_neg (by simp [h0.2]), if_pos h0.1, hrec]
      congr 1
      omega

/-- C5: if every attempt before attempt `i` fails in a retryable way and
the body seen at attempt `i` (within the retry ceiling) contains a
bot-wall marker phrase, `fetch_html` returns no HTML with the bot-wall
outcome `"captcha"` immediately, having consumed exactly `i + 1` attempts
(no further retries). -/
theorem C5_botwall_returns_immediately (resp : ℕ → HttpAttempt) (maxR i : ℕ)
    (hi : i < maxR)
    (hfail : ∀ j < i, attemptRetries (resp j))
    (status : ℕ) (body : String)
    (hresp : resp i = .page status body)
    (hcap : is_captcha_page body = true) :
    fetch_html resp maxR = ⟨none, some "captcha", i + 1⟩ := by
  have := fetchGo_captcha resp i 0 maxR hi (by simpa using hfail) status body
    (by simpa using hresp) hcap
  simpa [fetch_html] using this

/-- Witness for C5: a network error on the first attempt, then a captcha
body with status 503 on the second attempt; the fetch stops after exactly
2 of the 4 allowed attempts with outcome `"captcha"`. -/
theorem C5_botwall_returns_immediately_witness :
    fetch_html
      (fun n => if n = 0 then HttpAttempt.netErr
        else HttpAttempt.page 503 "Enter the characters you see below to continue") 4 =
      ⟨none, some "captcha", 2⟩ :=
  C5_botwall_returns_immediately
    (fun n => if n = 0 then HttpAttempt.netErr
      else HttpAttempt.page 503 "Enter the characters you see below to continue")
    4 1 (by omega)
    (by intro j hj
        have : j = 0 := by omega
        subst this
        simp [attemptRetries])
    503 "Enter the characters you see below to continue" rfl (by decide)

/-- C6 (code bug): when every attempt up to the retry ceiling fails with a
bad HTTP status (here four straight 500s), `fetch_html` still returns the
outcome `"network"`, not the documented `"http"` outcome — the function's
own docstring lists `"http"` as a possible `error_reason` but the loop's
fall-through returns `"network"` for both failure kinds. -/
theorem C6_http_exhaustion_reports_network :
    fetch_html (fun _ => HttpAttempt.page 500 "internal server error") 4 =
        ⟨none, some "network", 4⟩ ∧
      (some "network" : Option String) ≠ some "http" := by
  constructor
  · rfl
  · decide

/-- One candidate deal dict as produced by `scraper.parse_search_page` /
consumed by `run_once.py` and `database.py`. -/
structure Deal where
  asin : String
  title : Option String
  product_url : String
  image_url : Option String
  deal_price : Option ℚ
  original_price : Option ℚ
  discount : Option ℤ
  category : Option String
  limited_time : Bool
deriving DecidableEq

/-- One TinyDB document written by `database.record_posted_deal`.
`last_posted_at` and `first_seen_at` are the stored timestamps after
normalisation by `database._parse_any_timestamp` (seconds since epoch;
`none` models a missing or unparseable stored value). -/
structure PostRecord where
  asin : String
  title : Option String
  url : Option String
  affiliate_url : Option String
  last_price : Option ℚ
  last_original_price : Option ℚ
  last_discount : Option ℤ
  last_posted_at : Option ℚ
  first_seen_at : Option ℚ
deriving DecidableEq

/-- Model of `database.should_skip_deal`.  `db.get(Posted.asin == asin)` is the first
matching document; Python truthiness makes the price-drop override apply
only when both prices are non-`None` and nonzero and the last price is
positive. -/
def should_skip_deal (db : List PostRecord) (now cooldownHours dropPct : ℚ)
    (asin : String) (current_price : Option ℚ) : Bool :=
  if asin = "" then false
  else
    match db.find? (fun r => r.asin == asin) with
    | none => false
    | some existing =>
      match existing.last_posted_at with
      | none => false
      | some lastTs =>
        let hoursSince := (now - lastTs) / 3600
        if cooldownHours ≤ hoursSince then false
        else
          match existing.last_price, current_price with
          | some lp, some cp =>
            if lp ≠ 0 ∧ cp ≠ 0 ∧ 0 < lp then
              if dropPct ≤ (lp - cp) / lp * 100 then false else true
            else true
          | _, _ => true

/-- A stored record used in the C2 scenarios: posted at epoch time 0 at
price 1000, `first_seen_at` epoch 0. -/
def samplePost : PostRecord :=
  { asin := "B000000001", title := none, url := none, affiliate_url := none,
    last_price := some 1000, last_original_price := none, last_discount := none,
    last_posted_at := some 0, first_seen_at := some 0 }

/-- C2 counterexample: within the cooldown window with `lastPrice = 1000`
and `currentPrice = 0`, the drop `(1000 - 0)/1000*100 = 100` meets the 8%
override threshold, so the claim demands `false` — but the code's
truthiness guard (`current_price` falsy) returns `true` (skip). -/
theorem C2_counterexample_zero_current_price :
    should_skip_deal [samplePost] 0 72 8 "B000000001" (some 0) = true ∧
      ((1000 : ℚ) - 0) / 1000 * 100 ≥ 8 := by
  constructor
  · have hne : ("B000000001" : String) ≠ "" := by decide
    norm_num [should_skip_deal, samplePost, hne]
  · norm_num

/-- C2 (amended): for a nonempty identifier, `should_skip_deal` returns
`false` when no record matches; returns `false` when the matched record's
elapsed hours reach the cooldown; within the cooldown it returns `false`
iff both `lastPrice` and `currentPrice` are present and nonzero,
`lastPrice` is positive, and the percentage drop meets the override
threshold; with a missing or zero price on either side (or nonpositive
`lastPrice`) it skips. -/
theorem C2_should_skip_amended (db : List PostRecord) (now cooldown dropPct : ℚ)
    (a : String) (cp : Option ℚ) (ha : a ≠ "") :
    ((∀ r ∈ db, r.asin ≠ a) →
      should_skip_deal db now cooldown dropPct a cp = false) ∧
    (∀ e, db.find? (fun r => r.asin == a) = some e →
      ∀ ts, e.last_posted_at = some ts →
      ((cooldown ≤ (now - ts) / 3600 →
        should_skip_deal db now cooldown dropPct a cp = false) ∧
      ((now - ts) / 3600 < cooldown →
        (∀ lp c, e.last_price = some lp → cp = some c → 0 < lp → c ≠ 0 →
          (should_skip_deal db now cooldown dropPct a cp = false ↔
            dropPct ≤ (lp - c) / lp * 100)) ∧
        ((e.last_price = none ∨ e.last_price = some 0 ∨
            (∃ lp, e.last_price = some lp ∧ lp < 0) ∨
            cp = none ∨ cp = some 0) →
          should_skip_deal db now cooldown dropPct a cp = true)))) := by
  refine ⟨?_, ?_⟩
  · intro hnone
    have hfind : db.find? (fun r => r.asin == a) = none := by
      rw [List.find?_eq_none]
      intro r hr
      simpa using hnone r hr
    simp [should_skip_deal, ha, hfind]
  · intro e hfind ts hts
    refine ⟨?_, ?_⟩
    · intro hcool
      simp [should_skip_deal, ha, hfind, hts, if_pos hcool]
    · intro hlt
      have hcool : ¬ cooldown ≤ (now - ts) / 3600 := not_le.mpr hlt
      refine ⟨?_, ?_⟩
      · intro lp c hlp hcp hlppos hcne
        simp only [should_skip_deal, if_neg ha, hfind, hts, if_neg hcool, hlp, hcp,
          if_pos (show lp ≠ 0 ∧ c ≠ 0 ∧ 0 < lp from ⟨ne_of_gt hlppos, hcne, hlppos⟩)]
        constructor
        · intro h
          by_contra hd
          rw [if_neg hd] at h
          exact absurd h (by simp)
        · intro hd
          rw [if_pos hd]
      · intro hdeg
        rcases hdeg with h | h | ⟨lp, h, hneg⟩ | h | h
        · cases hc : cp with
          | none => simp [should_skip_deal, ha, hfind, hts, if_neg hcool, h]
          | some c => simp [should_skip_deal, ha, hfind, hts, if_neg hcool, h]
        · cases hc : cp with
          | none => simp [should_skip_deal, ha, hfind, hts, if_neg hcool, h]
          | some c => simp [should_skip_deal, ha, hfind, hts, if_neg hcool, h]
        · cases hc : cp with
          | none => simp [should_skip_deal, ha, hfind, hts, if_neg hcool, h]
          | some c =>
            simp only [should_skip_deal, if_neg ha, hfind, hts, if_neg hcool, h]
            rw [if_neg (by rintro ⟨-, -, h0⟩; exact absurd h0 (not_lt.mpr hneg.le))]
        · cases hl : e.last_price with
          | none => simp [should_skip_deal, ha, hfind, hts, if_neg hcool, hl, h]
          | some lp => simp [should_skip_deal, ha, hfind, hts, if_neg hcool, hl, h]
        · cases hl : e.last_price with
          | none => simp [should_skip_deal, ha, hfind, hts, if_neg hcool, hl, h]
          | some lp =>
            simp only [should_skip_deal, if_neg ha, hfind, hts, if_neg hcool, hl, h]
            rw [if_neg (by rintro ⟨-, hc0, -⟩; exact hc0 rfl)]

/-- Witness for C2 (amended): the spec's cooldown scenario — posted at
price 1000 just now, cooldown 72h, override 8%: a current price of 900
(10% drop) is allowed through (`false`). -/
theorem C2_should_skip_amended_witness :
    should_skip_deal [samplePost] 0 72 8 "B000000001" (some 900) = false := by
  have h := (C2_should_skip_amended [samplePost] 0 72 8 "B000000001" (some 900)
    (by decide)).2 samplePost (by simp [samplePost]) 0 rfl
  exact ((h.2 (by norm_num)).1 1000 900 rfl rfl (by norm_num) (by norm_num)).mpr
    (by norm_num)

/-- The document produced when `database.record_posted_deal` inserts (no
document matched): the full payload, `first_seen_at` included. -/
def insertedRecord (deal : Deal) (aff : Option String) (now : ℚ) : PostRecord :=
  { asin := (pyStrip deal.asin), title := deal.title, url := some deal.product_url,
    affiliate_url := aff, last_price := deal.deal_price,
    last_original_price := deal.original_price, last_discount := deal.discount,
    last_posted_at := some now, first_seen_at := some now }

/-- TinyDB `update` with `record_posted_deal`'s payload: every payload key
is set, keys absent from the payload are kept.  `incl` records whether the
payload carried a `first_seen_at` key. -/
def applyPayload (deal : Deal) (aff : Option String) (now : ℚ)
    (asin : String) (incl : Bool) (r : PostRecord) : PostRecord :=
  { asin := asin, title := deal.title, url := some deal.product_url,
    affiliate_url := aff, last_price := deal.deal_price,
    last_original_price := deal.original_price, last_discount := deal.discount,
    last_posted_at := some now,
    first_seen_at := if incl then some now else r.first_seen_at }

/-- Whether the payload includes `first_seen_at`: Python
`if not existing or not existing.get("first_seen_at")` against the first
matching document. -/
def payloadIncludesFirst (db : List PostRecord) (asin : String) : Bool :=
  match db.find? (fun r => r.asin == asin) with
  | none => true
  | some e => e.first_seen_at.isNone

/-- The per-document action of `db.upsert(payload, Posted.asin == asin)`:
matching documents get the payload applied, others are untouched. -/
def updFn (deal : Deal) (aff : Option String) (now : ℚ) (incl : Bool)
    (r : PostRecord) : PostRecord :=
  if r.asin == (pyStrip deal.asin) then applyPayload deal aff now (pyStrip deal.asin) incl r
  else r

/-- Model of `database.record_posted_deal`: no-op on a falsy asin, else upsert the
payload keyed on the stripped asin (update all matching documents, or
append the payload when none matches). -/
def record_posted_deal (db : List PostRecord) (deal : Deal)
    (aff : Option String) (now : ℚ) : List PostRecord :=
  if deal.asin = "" then db
  else if db.any (fun r => r.asin == (pyStrip deal.asin)) then
    db.map (updFn deal aff now (payloadIncludesFirst db (pyStrip deal.asin)))
  else db ++ [insertedRecord deal aff now]

/-- Number of store documents for a given asin. -/
def countAsin (db : List PostRecord) (a : String) : ℕ :=
  (db.filter (fun r => r.asin == a)).length

theorem updFn_of_pos (deal : Deal) (aff : Option String) (now : ℚ) (incl : Bool)
    (r : PostRecord) (h : (r.asin == (pyStrip deal.asin)) = true) :
    updFn deal aff now incl r = applyPayload deal aff now (pyStrip deal.asin) incl r := by
  unfold updFn
  rw [if_pos h]

theorem updFn_comp_pred (deal : Deal) (aff : Option String) (now : ℚ) (incl : Bool) :
    (fun r : PostRecord => r.asin == (pyStrip deal.asin)) ∘ updFn deal aff now incl =
      fun r : PostRecord => r.asin == (pyStrip deal.asin) := by
  funext r
  by_cases h : (r.asin == (pyStrip deal.asin)) = true
  · simp [updFn, h, applyPayload]
  · simp [updFn, h]

/-- C4: from any store carrying at most one document for the candidate's
(stripped, nonempty) asin, recording the same candidate twice in a row
leaves exactly one document for that asin, and its `first_seen_at` after
the second call equals its value after the first call. -/
theorem C4_record_twice_preserves_first_seen (db : List PostRecord) (deal : Deal)
    (aff1 aff2 : Option String) (t1 t2 : ℚ)
    (hne : ¬ deal.asin = "")
    (hcount : countAsin db (pyStrip deal.asin) ≤ 1) :
    countAsin (record_posted_deal (record_posted_deal db deal aff1 t1) deal aff2 t2)
        (pyStrip deal.asin) = 1 ∧
      ((record_posted_deal (record_posted_deal db deal aff1 t1) deal aff2 t2).find?
          (fun r => r.asin == (pyStrip deal.asin))).bind PostRecord.first_seen_at =
        ((record_posted_deal db deal aff1 t1).find?
          (fun r => r.asin == (pyStrip deal.asin))).bind PostRecord.first_seen_at := by
  by_cases hdb : db.any (fun r => r.asin == (pyStrip deal.asin)) = true
  · -- a matching document already exists: both calls update in place
    obtain ⟨e0, hfind0⟩ := Option.isSome_iff_exists.mp (show
        (db.find? (fun r => r.asin == (pyStrip deal.asin))).isSome by
      rw [List.find?_isSome]
      simpa [List.any_eq_true] using hdb)
    have hpe0 : (e0.asin == (pyStrip deal.asin)) = true := by
      simpa using List.find?_some hfind0
    have hdb1 : record_posted_deal db deal aff1 t1 =
        db.map (updFn deal aff1 t1 e0.first_seen_at.isNone) := by
      unfold record_posted_deal
      rw [if_neg hne, if_pos hdb]
      simp only [payloadIncludesFirst, hfind0]
    have hupd1e0 : updFn deal aff1 t1 e0.first_seen_at.isNone e0 =
        applyPayload deal aff1 t1 (pyStrip deal.asin) e0.first_seen_at.isNone e0 :=
      updFn_of_pos _ _ _ _ _ hpe0
    have hany1 : (db.map (updFn deal aff1 t1 e0.first_seen_at.isNone)).any
        (fun r => r.asin == (pyStrip deal.asin)) = true := by
      rw [List.any_map, updFn_comp_pred]
      exact hdb
    have hfind1 : (db.map (updFn deal aff1 t1 e0.first_seen_at.isNone)).find?
        (fun r => r.asin == (pyStrip deal.asin)) =
        some (updFn deal aff1 t1 e0.first_seen_at.isNone e0) := by
      rw [List.find?_map, updFn_comp_pred, hfind0]
      rfl
    have hnone1 : (updFn deal aff1 t1 e0.first_seen_at.isNone e0).first_seen_at.isNone
        = false := by
      rw [hupd1e0]
      cases he : e0.first_seen_at <;> simp [applyPayload, he]
    have hdb2 : record_posted_deal
        (db.map (updFn deal aff1 t1 e0.first_seen_at.isNone)) deal aff2 t2 =
        (db.map (updFn deal aff1 t1 e0.first_seen_at.isNone)).map
          (updFn deal aff2 t2 false) := by
      unfold record_posted_deal
      rw [if_neg hne, if_pos hany1]
      simp only [payloadIncludesFirst, hfind1, hnone1]
    have hcount1 : 1 ≤ countAsin db (pyStrip deal.asin) := by
      obtain ⟨x, hx, hpx⟩ := List.any_eq_true.mp hdb
      have hmem : x ∈ db.filter (fun r => r.asin == (pyStrip deal.asin)) :=
        List.mem_filter.mpr ⟨hx, hpx⟩
      have hlen := List.length_pos.mpr (List.ne_nil_of_mem hmem)
      simpa [countAsin] using hlen
    refine ⟨?_, ?_⟩
    · rw [hdb1, hdb2]
      simp only [countAsin]
      rw [List.filter_map, updFn_comp_pred, List.length_map,
        List.filter_map, updFn_comp_pred, List.length_map]
      have : countAsin db (pyStrip deal.asin) = 1 := le_antisymm hcount hcount1
      simpa [countAsin] using this
    · rw [hdb1, hdb2, List.find?_map, updFn_comp_pred, hfind1]
      have hp1 : ((updFn deal aff1 t1 e0.first_seen_at.isNone e0).asin ==
          (pyStrip deal.asin)) = true := by
        rw [hupd1e0]
        simp [applyPayload]
      simp only [Option.map_some', Option.some_bind]
      rw [updFn_of_pos _ _ _ _ _ hp1]
      simp [applyPayload]
  · -- no matching document: the first call inserts, the second updates
    have hdb' : db.any (fun r => r.asin == (pyStrip deal.asin)) = false := by
      simpa using hdb
    have hfind0 : db.find? (fun r => r.asin == (pyStrip deal.asin)) = none := by
      rw [List.find?_eq_none]
      intro r hr
      rw [List.any_eq_false] at hdb'
      simp [hdb' r hr]
    have hfilter0 : db.filter (fun r => r.asin == (pyStrip deal.asin)) = [] := by
      rw [List.filter_eq_nil_iff]
      intro r hr
      rw [List.any_eq_false] at hdb'
      simp [hdb' r hr]
    have hdb1 : record_posted_deal db deal aff1 t1 =
        db ++ [insertedRecord deal aff1 t1] := by
      unfold record_posted_deal
      rw [if_neg hne, if_neg (by simp [hdb'])]
    have hany1 : (db ++ [insertedRecord deal aff1 t1]).any
        (fun r => r.asin == (pyStrip deal.asin)) = true := by
      rw [List.any_append]
      simp [insertedRecord]
    have hfind1 : (db ++ [insertedRecord deal aff1 t1]).find?
        (fun r => r.asin == (pyStrip deal.asin)) = some (insertedRecord deal aff1 t1) := by
      rw [List.find?_append, hfind0, Option.none_or]
      exact List.find?_cons_of_pos _ (by simp [insertedRecord])
    have hdb2 : record_posted_deal (db ++ [insertedRecord deal aff1 t1]) deal aff2 t2 =
        (db ++ [insertedRecord deal aff1 t1]).map (updFn deal aff2 t2 false) := by
      unfold record_posted_deal
      rw [if_neg hne, if_pos hany1]
      simp only [payloadIncludesFirst, hfind1]
      simp [insertedRecord]
    refine ⟨?_, ?_⟩
    · rw [hdb1, hdb2]
      simp only [countAsin]
      rw [List.filter_map, updFn_comp_pred, List.length_map, List.filter_append,
        hfilter0]
      simp [insertedRecord]
    · rw [hdb1, hdb2, List.find?_map, updFn_comp_pred, hfind1]
      simp only [Option.map_some', Option.some_bind]
      rw [updFn_of_pos _ _ _ _ _ (by simp [insertedRecord])]
      simp [applyPayload, insertedRecord]

/-- A concrete well-formed candidate used by witnesses. -/
def sampleDeal : Deal :=
  { asin := "B000000001", title := some "Sample product",
    product_url := "https://www.amazon.in/dp/B000000001", image_url := none,
    deal_price := some 499, original_price := some 999, discount := some 50,
    category := some "Electronics & Gadgets", limited_time := false }

/-- Witness for C4: recording `sampleDeal` twice into an empty store. -/
theorem C4_record_twice_preserves_first_seen_witness :
    countAsin (record_posted_deal (record_posted_deal [] sampleDeal none 100)
        sampleDeal none 200) (pyStrip sampleDeal.asin) = 1 ∧
      ((record_posted_deal (record_posted_deal [] sampleDeal none 100)
          sampleDeal none 200).find?
          (fun r => r.asin == (pyStrip sampleDeal.asin))).bind PostRecord.first_seen_at =
        ((record_posted_deal [] sampleDeal none 100).find?
          (fun r => r.asin == (pyStrip sampleDeal.asin))).bind PostRecord.first_seen_at :=
  C4_record_twice_preserves_first_seen [] sampleDeal none none 100 200
    (by decide) (by simp [countAsin])

/-- The configuration surface of `run_once.choose_discount_threshold`:
`MINIMUM_DISCOUNT`, `ENABLE_DYNAMIC_DISCOUNT`, `TARGET_DEALS_PER_RUN`,
`LOWEST_DISCOUNT_FLOOR`, `DISCOUNT_FALLBACK_STEP`. -/
structure ThresholdConfig where
  base : ℤ
  enableDynamic : Bool
  target : ℤ
  floor : ℤ
  step : ℤ
deriving DecidableEq

/-- The count `sum(1 for d in deals if isinstance(d.get("discount"), int) and
d["discount"] >= threshold)`. -/
def countAtLeast (deals : List Deal) (t : ℤ) : ℤ :=
  ((deals.filter (fun d => match d.discount with
    | some x => decide (t ≤ x)
    | none => false)).length : ℤ)

/-- The `while threshold > floor` loop of `choose_discount_threshold`.
`fuel` bounds the iteration count; `none` models the (unreachable for a
positive step) case of the Python loop never terminating. -/
def chooseLoop (deals : List Deal) (cfg : ThresholdConfig) : ℕ → ℤ → Option ℤ
  | 0, _ => none
  | fuel + 1, t =>
    if cfg.floor < t then
      if cfg.target ≤ countAtLeast deals t then some t
      else chooseLoop deals cfg fuel (t - cfg.step)
    else some (max cfg.floor t)

/-- Model of `run_once.choose_discount_threshold`: `base` when dynamic adjustment is
disabled or when no candidate has an integer discount; otherwise run the
descending-threshold loop starting from `base`. -/
def choose_discount_threshold (cfg : ThresholdConfig) (deals : List Deal) : Option ℤ :=
  if !cfg.enableDynamic then some cfg.base
  else if (deals.filter (fun d => d.discount.isSome)).isEmpty then some cfg.base
  else chooseLoop deals cfg ((cfg.base - cfg.floor).toNat + 1) cfg.base

theorem chooseLoop_spec (deals : List Deal) (cfg : ThresholdConfig)
    (hstep : 1 ≤ cfg.step) :
    ∀ (fuel : ℕ) (t : ℤ), (t - cfg.floor).toNat < fuel →
    ∃ r, chooseLoop deals cfg fuel t = some r ∧ cfg.floor ≤ r ∧
      ((∃ k : ℕ, r = t - k * cfg.step ∧ cfg.floor < r ∧
          cfg.target ≤ countAtLeast deals r ∧
          ∀ j : ℕ, j < k → countAtLeast deals (t - j * cfg.step) < cfg.target) ∨
        (r = cfg.floor ∧
          ∀ k : ℕ, cfg.floor < t - k * cfg.step →
            countAtLeast deals (t - k * cfg.step) < cfg.target)) := by
  intro fuel
  induction fuel with
  | zero => intro t ht; omega
  | succ fuel ih =>
    intro t ht
    by_cases hfl : cfg.floor < t
    · by_cases hcnt : cfg.target ≤ countAtLeast deals t
      · refine ⟨t, by simp [chooseLoop, hfl, hcnt], le_of_lt hfl, Or.inl ⟨0, ?_, hfl, hcnt, ?_⟩⟩
        · simp
        · intro j hj
          omega
      · have hfuel : (t - cfg.step - cfg.floor).toNat < fuel := by omega
        obtain ⟨r, hr, hrfl, hcase⟩ := ih (t - cfg.step) hfuel
        refine ⟨r, ?_, hrfl, ?_⟩
        · simp only [chooseLoop, if_pos hfl, if_neg hcnt]
          exact hr
        · rcases hcase with ⟨k, hrk, hrf, hrc, hall⟩ | ⟨hrf, hall⟩
          · refine Or.inl ⟨k + 1, ?_, hrf, hrc, ?_⟩
            · have hk : ((k + 1 : ℕ) : ℤ) * cfg.step = (k : ℤ) * cfg.step + cfg.step := by
                push_cast
                ring
              rw [hk]
              linarith [hrk]
            · intro j hj
              cases j with
              | zero =>
                simpa using not_le.mp hcnt
              | succ j =>
                have hj' : j < k := by omega
                have hcast : t - ((j + 1 : ℕ) : ℤ) * cfg.step =
                    t - cfg.step - (j : ℤ) * cfg.step := by
                  push_cast
                  ring
                rw [hcast]
                exact hall j hj'
          · refine Or.inr ⟨hrf, ?_⟩
            intro k hk
            cases k with
            | zero =>
              simpa using not_le.mp hcnt
            | succ k =>
              have hcast : t - ((k + 1 : ℕ) : ℤ) * cfg.step =
                  t - cfg.step - (k : ℤ) * cfg.step := by
                push_cast
                ring
              rw [hcast] at hk ⊢
              exact hall k hk
    · refine ⟨max cfg.floor t, by simp [chooseLoop, hfl], le_max_left _ _, Or.inr ⟨?_, ?_⟩⟩
      · omega
      · intro k hk
        have hk0 : (0 : ℤ) ≤ (k : ℤ) * cfg.step :=
          mul_nonneg (Int.natCast_nonneg k) (by omega)
        omega

/-- Configuration used for the C3 scenarios: base 60, floor 40, step 5,
target 12, dynamic adjustment enabled (the repository defaults). -/
def thresholdCfg : ThresholdConfig :=
  { base := 60, enableDynamic := true, target := 12, floor := 40, step := 5 }

/-- C3 counterexample: with an empty candidate list the target count 12 is
never reached at any threshold, so the claim demands the floor 40 — but
the code's early `if not discounts: return base` returns the base 60. -/
theorem C3_counterexample_empty_pool :
    choose_discount_threshold thresholdCfg [] = some 60 ∧
      (∀ t : ℤ, countAtLeast [] t < thresholdCfg.target) ∧
      thresholdCfg.base ≠ thresholdCfg.floor := by
  refine ⟨rfl, ?_, by decide⟩
  intro t
  show (0 : ℤ) < 12
  norm_num

/-- C3 (amended): with a positive step, the selector returns `base` when
dynamic adjustment is disabled or when no candidate has an integer
discount; otherwise it returns a value `≥ floor` that is either the first
threshold in `base, base-step, …` strictly above `floor` whose candidate
count reaches `targetCount`, or `floor` when no threshold above `floor`
reaches the target. -/
theorem C3_threshold_amended (cfg : ThresholdConfig) (deals : List Deal)
    (hstep : 1 ≤ cfg.step) :
    (cfg.enableDynamic = false → choose_discount_threshold cfg deals = some cfg.base) ∧
    (cfg.enableDynamic = true → (∀ d ∈ deals, d.discount = none) →
      choose_discount_threshold cfg deals = some cfg.base) ∧
    (cfg.enableDynamic = true → (∃ d ∈ deals, d.discount ≠ none) →
      ∃ r, choose_discount_threshold cfg deals = some r ∧ cfg.floor ≤ r ∧
        ((∃ k : ℕ, r = cfg.base - k * cfg.step ∧ cfg.floor < r ∧
            cfg.target ≤ countAtLeast deals r ∧
            ∀ j : ℕ, j < k → countAtLeast deals (cfg.base - j * cfg.step) < cfg.target) ∨
          (r = cfg.floor ∧
            ∀ k : ℕ, cfg.floor < cfg.base - k * cfg.step →
              countAtLeast deals (cfg.base - k * cfg.step) < cfg.target))) := by
  refine ⟨?_, ?_, ?_⟩
  · intro h
    simp [choose_discount_threshold, h]
  · intro hdyn hnone
    have hfilter : deals.filter (fun d => d.discount.isSome) = [] := by
      rw [List.filter_eq_nil_iff]
      intro d hd
      simp [hnone d hd]
    simp [choose_discount_threshold, hdyn, hfilter]
  · intro hdyn hex
    obtain ⟨d, hd, hdisc⟩ := hex
    have hmem : d ∈ deals.filter (fun d => d.discount.isSome) :=
      List.mem_filter.mpr ⟨hd, by rwa [Option.isSome_iff_ne_none]⟩
    have hfilter : (deals.filter (fun d => d.discount.isSome)).isEmpty = false := by
      cases h : (deals.filter (fun d => d.discount.isSome)).isEmpty
      · rfl
      · exact absurd ((List.isEmpty_iff.mp h) ▸ hmem) (List.not_mem_nil d)
    obtain ⟨r, hr, hrest⟩ := chooseLoop_spec deals cfg hstep
      ((cfg.base - cfg.floor).toNat + 1) cfg.base (Nat.lt_succ_self _)
    refine ⟨r, ?_, hrest⟩
    simp [choose_discount_threshold, hdyn, hfilter, hr]

/-- Witness for C3 (amended): base 60, floor 40, step 5, target 1, one
candidate at 50% discount. -/
theorem C3_threshold_amended_witness :
    ∃ r, choose_discount_threshold ⟨60, true, 1, 40, 5⟩ [sampleDeal] = some r ∧
      (40 : ℤ) ≤ r ∧
      ((∃ k : ℕ, r = 60 - k * 5 ∧ (40 : ℤ) < r ∧
          (1 : ℤ) ≤ countAtLeast [sampleDeal] r ∧
          ∀ j : ℕ, j < k → countAtLeast [sampleDeal] (60 - j * 5) < 1) ∨
        (r = 40 ∧ ∀ k : ℕ, (40 : ℤ) < 60 - k * 5 →
          countAtLeast [sampleDeal] (60 - k * 5) < 1)) :=
  (C3_threshold_amended ⟨60, true, 1, 40, 5⟩ [sampleDeal] (by norm_num)).2.2 rfl
    ⟨sampleDeal, by simp, by simp [sampleDeal]⟩

/-- Model of `config.BASE_URL`. -/
def BASE_URL : String := "https://www.amazon.in"

/-- Model of `scraper.canonical_product_url`. -/
def canonical_product_url (asin : String) : String :=
  BASE_URL ++ "/dp/" ++ asin

/-- One character of the regex class `[A-Z0-9]`. -/
def asinChar (c : Char) : Bool :=
  c.isUpper || c.isDigit

/-- The capture group `([A-Z0-9]{10})`: exactly the next ten characters,
each in the class. -/
def takeAsin10 (l : List Char) : Option (List Char) :=
  if ((l.take 10).length = 10) ∧ (l.take 10).all asinChar then some (l.take 10)
  else none

/-- One anchored attempt of the regex `/(?:dp|gp/product)/([A-Z0-9]{10})`
at the head of the list. -/
def matchAsinAt : List Char → Option (List Char)
  | '/' :: 'd' :: 'p' :: '/' :: rest => takeAsin10 rest
  | '/' :: 'g' :: 'p' :: '/' :: 'p' :: 'r' :: 'o' :: 'd' :: 'u' :: 'c' :: 't' :: '/' :: rest =>
      takeAsin10 rest
  | _ => none

/-- Model of `re.search`: leftmost anchored match. -/
def searchAsin : List Char → Option (List Char)
  | [] => none
  | c :: rest => (matchAsinAt (c :: rest)).orElse (fun _ => searchAsin rest)

/-- Model of `scraper.extract_asin_from_url`. -/
def extract_asin_from_url (url : String) : Option String :=
  (searchAsin url.data).map String.mk

/-- C10: for every identifier of exactly 10 characters drawn from `A-Z0-9`,
extracting the identifier from the canonical product URL built from it
yields the identifier back. -/
theorem C10_asin_url_roundtrip (asin : String)
    (hlen : asin.data.length = 10)
    (hchars : asin.data.all asinChar = true) :
    extract_asin_from_url (canonical_product_url asin) = some asin := by
  obtain ⟨tail⟩ := asin
  have hlen' : tail.length = 10 := hlen
  have hchars' : tail.all asinChar = true := hchars
  have htake : tail.take 10 = tail := List.take_of_length_le (by omega)
  have htake10 : takeAsin10 tail = some tail := by
    unfold takeAsin10
    rw [htake, if_pos ⟨hlen', hchars'⟩]
  have hstep : searchAsin (canonical_product_url ⟨tail⟩).data =
      (takeAsin10 tail).orElse (fun _ => searchAsin ('d' :: 'p' :: '/' :: tail)) := rfl
  unfold extract_asin_from_url
  rw [hstep, htake10]
  rfl

/-- Witness for C10 at the concrete identifier `B0TEST1234`. -/
theorem C10_asin_url_roundtrip_witness :
    extract_asin_from_url (canonical_product_url "B0TEST1234") = some "B0TEST1234" :=
  C10_asin_url_roundtrip "B0TEST1234" (by decide) (by decide)

/-- The regex `(\d[\d,]*\.?\d*)` anchored at a digit `c`: greedy run of
digits and commas, then an optional dot followed by a greedy digit run. -/
def priceMatchHere (c : Char) (rest : List Char) : List Char :=
  match rest.dropWhile (fun x => x.isDigit || x = ',') with
  | '.' :: rest2 =>
    c :: rest.takeWhile (fun x => x.isDigit || x = ',') ++
      '.' :: rest2.takeWhile Char.isDigit
  | _ => c :: rest.takeWhile (fun x => x.isDigit || x = ',')

/-- Model of `re.search` for the price regex: the match is anchored at the leftmost
digit. -/
def priceSearch : List Char → Option (List Char)
  | [] => none
  | c :: rest => if c.isDigit then some (priceMatchHere c rest) else priceSearch rest

/-- A run of decimal digits read as a natural number. -/
def digitsToNat (ds : List Char) : ℕ :=
  ds.foldl (fun acc c => acc * 10 + (c.toNat - '0'.toNat)) 0

/-- Python `float(raw)` for `raw` of shape `digits[.digits]`, as an exact
rational. -/
def decimalToRat (raw : List Char) : ℚ :=
  match raw.dropWhile Char.isDigit with
  | '.' :: frac => (digitsToNat (raw.takeWhile Char.isDigit) : ℚ) +
      (digitsToNat frac : ℚ) / (10 : ℚ) ^ frac.length
  | _ => (digitsToNat (raw.takeWhile Char.isDigit) : ℚ)

/-- Model of `scraper.parse_inr_price`: falsy text gives `None`; otherwise search
for the price pattern, strip commas from the captured group and read it as
a number. -/
def parse_inr_price (text : Option String) : Option ℚ :=
  match text with
  | none => none
  | some s =>
    if s = "" then none
    else match priceSearch s.data with
      | none => none
      | some raw => some (decimalToRat (raw.filter (fun c => c != ',')))

/-- One `span.a-offscreen` price element inside a search-result card:
its text, and whether its enclosing `span.a-price` carries the
`a-text-price` (strike-through) class. -/
structure OffscreenSpan where
  txt : String
  parentTextPrice : Bool
deriving DecidableEq

/-- One `div[data-component-type='s-search-result']` block, abstracted at
the level of the selector queries `parse_search_page` makes against it:
`priceSpans` is the result of `span.a-price span.a-offscreen`, `mrpTexts`
the texts from `span.a-price.a-text-price span.a-offscreen,
span.a-text-price span.a-offscreen`, `title` the (falsy-filtered) result
of `_extract_search_title`, `imageUrl` of `_extract_search_image`. -/
structure ResultBlock where
  dataAsin : String
  sponsored : Bool
  title : Option String
  imageUrl : Option String
  priceSpans : List OffscreenSpan
  mrpTexts : List String
  limitedTime : Bool
deriving DecidableEq

/-- The `"₹" not in txt and "Rs" not in txt` currency guard (negated). -/
def hasRupeeMark (txt : String) : Bool :=
  strContains txt "₹" || strContains txt "Rs"

/-- Model of `scraper._extract_search_prices`: the deal price is the first parsable
rupee amount among non-strike-through spans, the reference (original)
price the first parsable rupee amount among strike-through spans.  The
Python loop assigns and breaks on the first successful parse, which is
`findSome?`. -/
def extract_search_prices (div : ResultBlock) : Option ℚ × Option ℚ :=
  (div.priceSpans.findSome? (fun s =>
      if s.txt = "" then none
      else if s.parentTextPrice then none
      else if hasRupeeMark s.txt then parse_inr_price (some s.txt) else none),
   div.mrpTexts.findSome? (fun t =>
      if t = "" then none
      else if hasRupeeMark t then parse_inr_price (some t) else none))

/-- Model of `scraper.parse_search_page`: keep blocks with a 10-character stripped
`data-asin`, no sponsorship marker and a nonempty title; prices come from
`_extract_search_prices` and the discount from `compute_discount`. -/
def parse_search_page (blocks : List ResultBlock) (category : String) : List Deal :=
  blocks.filterMap (fun div =>
    if pyStrip div.dataAsin = "" ∨ (pyStrip div.dataAsin).length ≠ 10 then none
    else if div.sponsored then none
    else match div.title with
      | none => none
      | some title =>
        some { asin := pyStrip div.dataAsin, title := some title,
               product_url := canonical_product_url (pyStrip div.dataAsin),
               image_url := div.imageUrl,
               deal_price := (extract_search_prices div).1,
               original_price := (extract_search_prices div).2,
               discount := compute_discount (extract_search_prices div).2
                 (extract_search_prices div).1,
               category := some category, limited_time := div.limitedTime })

theorem compute_discount_none_of_le (op dp : ℚ) (h : op ≤ dp) :
    compute_discount (some op) (some dp) = none := by
  by_cases h1 : op = 0 ∨ dp = 0
  · simp only [compute_discount, if_pos h1]
  · by_cases h2 : op ≤ 0 ∨ dp ≤ 0
    · simp only [compute_discount, if_neg h1, if_pos h2]
    · simp only [compute_discount, if_neg h1, if_neg h2, if_pos h]

/-- A search-result block whose strike-through reference price (₹50) is
below its selling price (₹100). -/
def inverseBlock : ResultBlock :=
  { dataAsin := "B000000002", sponsored := false, title := some "Gadget",
    imageUrl := none, priceSpans := [⟨"₹100", false⟩], mrpTexts := ["₹50"],
    limitedTime := false }

/-- C7 counterexample: for a block whose extracted reference price (50) is
below the extracted selling price (100), the parser yields `discount =
none`, but it does **not** discard the reference price — the candidate's
`original_price` is `some 50`, not unset as the claim states. -/
theorem C7_counterexample_reference_price_kept :
    (parse_search_page [inverseBlock] "Electronics").map Deal.original_price =
        [some 50] ∧
      (parse_search_page [inverseBlock] "Electronics").map Deal.discount = [none] ∧
      (50 : ℚ) ≤ 100 := by
  refine ⟨by decide, by decide, by norm_num⟩

/-- C7 (amended): for every parsed candidate whose extracted reference
price is numerically less than or equal to the extracted selling price,
`discountPercent` is `None` rather than negative or zero; the reference
price itself is retained in `originalPrice` (not discarded). -/
theorem C7_amended_no_discount_when_reference_le_selling
    (blocks : List ResultBlock) (cat : String) (d : Deal)
    (hd : d ∈ parse_search_page blocks cat)
    (op dp : ℚ) (hop : d.original_price = some op) (hdp : d.deal_price = some dp)
    (hle : op ≤ dp) :
    d.discount = none := by
  unfold parse_search_page at hd
  obtain ⟨div, hmem, hf⟩ := List.mem_filterMap.mp hd
  split_ifs at hf with h1 h2
  cases htitle : div.title with
  | none =>
    rw [htitle] at hf
    exact absurd hf (by simp)
  | some title =>
    rw [htitle] at hf
    simp only [Option.some.injEq] at hf
    subst hf
    have hop' : (extract_search_prices div).2 = some op := hop
    have hdp' : (extract_search_prices div).1 = some dp := hdp
    show compute_discount (extract_search_prices div).2
      (extract_search_prices div).1 = none
    rw [hop', hdp']
    exact compute_discount_none_of_le op dp hle

/-- The candidate parsed from `inverseBlock`. -/
def inverseDeal : Deal :=
  { asin := "B000000002", title := some "Gadget",
    product_url := canonical_product_url "B000000002", image_url := none,
    deal_price := some 100, original_price := some 50, discount := none,
    category := some "Electronics", limited_time := false }

/-- Witness for C7 (amended) on the concrete `inverseBlock` scenario. -/
theorem C7_amended_no_discount_when_reference_le_selling_witness :
    inverseDeal.discount = none :=
  C7_amended_no_discount_when_reference_le_selling [inverseBlock] "Electronics"
    inverseDeal (by decide) 50 100 rfl rfl (by norm_num)

/-- One attempt's outcome against the Telegram API: a
`requests.RequestException`, or a response with a status code. -/
inductive TgResponse where
  | netErr : TgResponse
  | status (code : ℕ) : TgResponse
deriving DecidableEq

/-- Result of a delivery call, instrumented with the number of attempts
consumed (observable from the loop counter). -/
structure TgResult where
  ok : Bool
  attempts : ℕ
deriving DecidableEq

/-- The loop of `main._send_telegram_request`: 200 succeeds, 400 and 404
return `False` without further attempts, anything else (exception, 5xx,
any other 4xx) sleeps and retries. -/
def tgSendGo (resp : ℕ → TgResponse) : ℕ → ℕ → TgResult
  | used, 0 => ⟨false, used⟩
  | used, remaining + 1 =>
    match resp used with
    | .netErr => tgSendGo resp (used + 1) remaining
    | .status code =>
      if code = 200 then ⟨true, used + 1⟩
      else if code = 400 ∨ code = 404 then ⟨false, used + 1⟩
      else tgSendGo resp (used + 1) remaining

/-- Model of `main._send_telegram_request` with its attempt ceiling. -/
def send_telegram_request (resp : ℕ → TgResponse) (retries : ℕ) : TgResult :=
  tgSendGo resp 0 retries

/-- An outcome `main._send_telegram_request` retries: an exception or a
status other than 200, 400 and 404. -/
def tgRetryable : TgResponse → Prop
  | .netErr => True
  | .status code => code ≠ 200 ∧ ¬(code = 400 ∨ code = 404)

/-- The loop of `run_once.send_telegram_message` (3 attempts): with an
image, a non-200 `sendPhoto` response clears the image and retries as
text; without an image, 200 succeeds and anything else retries.  No
status, 4xx included, is terminal. -/
def sendMsgGo (resp : ℕ → TgResponse) : ℕ → ℕ → Bool → Bool × ℕ
  | used, 0, _ => (false, used)
  | used, remaining + 1, hasImage =>
    match resp used with
    | .netErr => sendMsgGo resp (used + 1) remaining hasImage
    | .status code =>
      if hasImage then
        if code ≠ 200 then sendMsgGo resp (used + 1) remaining false
        else (true, used + 1)
      else
        if code = 200 then (true, used + 1)
        else sendMsgGo resp (used + 1) remaining false

/-- Model of `run_once.send_telegram_message`: `for attempt in range(1, 4)`. -/
def send_telegram_message (resp : ℕ → TgResponse) (hasImage : Bool) : Bool × ℕ :=
  sendMsgGo resp 0 3 hasImage

theorem tgSendGo_skip (resp : ℕ → TgResponse) :
    ∀ (i used remaining : ℕ), i ≤ remaining →
    (∀ j < i, tgRetryable (resp (used + j))) →
    tgSendGo resp used remaining = tgSendGo resp (used + i) (remaining - i) := by
  intro i
  induction i with
  | zero =>
    intro used remaining _ _
    simp
  | succ i ih =>
    intro used remaining hle h
    obtain ⟨r, rfl⟩ : ∃ r, remaining = r + 1 := ⟨remaining - 1, by omega⟩
    have h0 : tgRetryable (resp used) := by simpa using h 0 (by omega)
    have hrec : tgSendGo resp (used + 1) r = tgSendGo resp (used + 1 + i) (r - i) := by
      refine ih (used + 1) r (by omega) ?_
      intro j hj
      have := h (j + 1) (by omega)
      have harith : used + (j + 1) = used + 1 + j := by omega
      rwa [harith] at this
    have harith2 : used + 1 + i = used + (i + 1) := by omega
    have harith3 : r - i = r + 1 - (i + 1) := by omega
    cases hp : resp used with
    | netErr =>
      simp only [tgSendGo, hp]
      rw [hrec, harith2, harith3]
    | status code =>
      rw [hp] at h0
      simp only [tgSendGo, hp]
      rw [if_neg h0.1, if_neg h0.2, hrec, harith2, harith3]

/-- C8 counterexample: `main._send_telegram_request` with every attempt
answered by HTTP 403 — a 4xx-class response — consumes all 3 attempts
(the delivery *is* retried), where the claim demands it be terminal after
the first. -/
theorem C8_counterexample_403_retried :
    send_telegram_request (fun _ => TgResponse.status 403) 3 = ⟨false, 3⟩ ∧
      (3 : ℕ) ≠ 1 := by
  exact ⟨rfl, by decide⟩

/-- C8 (amended): in `main._send_telegram_request`, exactly the statuses
400 and 404 are terminal (failure without further attempts); 200 is
success; every other outcome — timeout, 5xx, and any other 4xx such as
403 — is retried until the attempt ceiling, after which the call fails.
`run_once.send_telegram_message` treats no status as terminal: three
non-200 responses (4xx included) consume all 3 attempts and fail. -/
theorem C8_delivery_retry_amended (resp : ℕ → TgResponse) (retries : ℕ) :
    (∀ i < retries, (∀ j < i, tgRetryable (resp j)) →
      ∀ c, resp i = .status c → (c = 400 ∨ c = 404) →
      send_telegram_request resp retries = ⟨false, i + 1⟩) ∧
    (∀ i < retries, (∀ j < i, tgRetryable (resp j)) →
      resp i = .status 200 →
      send_telegram_request resp retries = ⟨true, i + 1⟩) ∧
    ((∀ j < retries, tgRetryable (resp j)) →
      send_telegram_request resp retries = ⟨false, retries⟩) ∧
    ((∀ j < 3, ∃ c, resp j = TgResponse.status c ∧ c ≠ 200) →
      ∀ hasImage, send_telegram_message resp hasImage = (false, 3)) := by
  refine ⟨?_, ?_, ?_, ?_⟩
  · intro i hi h c hc hterm
    have hskip := tgSendGo_skip resp i 0 retries (le_of_lt hi) (by simpa using h)
    obtain ⟨r, hr⟩ : ∃ r, retries - i = r + 1 := ⟨retries - i - 1, by omega⟩
    rw [send_telegram_request, hskip, hr]
    have hi0 : (0 : ℕ) + i = i := by omega
    rw [hi0]
    simp only [tgSendGo, hc]
    rw [if_neg (by rcases hterm with h' | h' <;> omega), if_pos hterm]
  · intro i hi h hc
    have hskip := tgSendGo_skip resp i 0 retries (le_of_lt hi) (by simpa using h)
    obtain ⟨r, hr⟩ : ∃ r, retries - i = r + 1 := ⟨retries - i - 1, by omega⟩
    rw [send_telegram_request, hskip, hr]
    have hi0 : (0 : ℕ) + i = i := by omega
    rw [hi0]
    simp [tgSendGo, hc]
  · intro h
    have hskip := tgSendGo_skip resp retries 0 retries (le_refl _) (by simpa using h)
    rw [send_telegram_request, hskip]
    simp [tgSendGo]
  · intro h hasImage
    obtain ⟨c0, h0, h0ne⟩ := h 0 (by omega)
    obtain ⟨c1, h1, h1ne⟩ := h 1 (by omega)
    obtain ⟨c2, h2, h2ne⟩ := h 2 (by omega)
    cases hasImage <;>
      simp [send_telegram_message, sendMsgGo, h0, h1, h2, h0ne, h1ne, h2ne]

/-- Witness for C8 (amended): a timeout, then a 500, then a terminal 404,
inside a ceiling of 5 attempts — failure after exactly 3 attempts. -/
theorem C8_delivery_retry_amended_witness :
    send_telegram_request
      (fun n => if n = 0 then TgResponse.netErr
        else if n = 1 then TgResponse.status 500 else TgResponse.status 404) 5 =
      ⟨false, 3⟩ :=
  (C8_delivery_retry_amended
    (fun n => if n = 0 then TgResponse.netErr
      else if n = 1 then TgResponse.status 500 else TgResponse.status 404) 5).1
    2 (by omega)
    (by intro j hj
        match j, hj with
        | 0, _ => exact trivial
        | 1, _ => exact ⟨by decide, by decide⟩)
    404 rfl (Or.inr rfl)

/-- The dict returned by `scraper.scrape_product_page` (the fields
`enrich_missing_fields` reads from it). -/
structure Details where
  title : Option String
  image_url : Option String
  deal_price : Option ℚ
  original_price : Option ℚ
  discount : Option ℤ
deriving DecidableEq

/-- Python truthiness of an optional number: `None` and `0` are falsy. -/
def truthyQ : Option ℚ → Bool
  | none => false
  | some q => q != 0

/-- The test `deal.get(k) in (None, "")` for a string-valued field. -/
def blankStr : Option String → Bool
  | none => true
  | some s => s == ""

/-- The update `if deal.get(k) in (None, "") and details.get(k) not in (None, ""):
deal[k] = details[k]` for a string field. -/
def fillStr (cur new : Option String) : Option String :=
  if blankStr cur && !(blankStr new) then new else cur

/-- The same update for a numeric field (a number is never `""`). -/
def fillQ (cur new : Option ℚ) : Option ℚ :=
  if cur == none && new != none then new else cur

/-- The same update for the integer discount field. -/
def fillZ (cur new : Option ℤ) : Option ℤ :=
  if cur == none && new != none then new else cur

/-- Apply one scraped details dict to a deal, field by field. -/
def applyDetails (d : Deal) (det : Details) : Deal :=
  { d with
    title := fillStr d.title det.title,
    image_url := fillStr d.image_url det.image_url,
    deal_price := fillQ d.deal_price det.deal_price,
    original_price := fillQ d.original_price det.original_price,
    discount := fillZ d.discount det.discount }

/-- The negation of the skip test
`deal.get("discount") is not None and deal.get("deal_price") and
deal.get("original_price")`: candidates that trigger a product-page
lookup. -/
def needsLookup (d : Deal) : Bool :=
  !(d.discount.isSome && truthyQ d.deal_price && truthyQ d.original_price)

/-- Model of `scraper.enrich_missing_fields` against a lookup oracle standing for
`scrape_product_page`.  Returns the updated deals, the final value of the
`lookups` counter, and the list of URLs actually fetched.  Note the
counter advances only on a *successful* lookup; a `None` result does not
count against the budget although the fetch happened. -/
def enrichGo (lookup : String → Option Details) :
    List Deal → ℕ → ℕ → List Deal × ℕ × List String
  | [], lookups, _ => ([], lookups, [])
  | d :: rest, lookups, maxLookups =>
    if maxLookups ≤ lookups then (d :: rest, lookups, [])
    else if !needsLookup d then
      let out := enrichGo lookup rest lookups maxLookups
      (d :: out.1, out.2)
    else
      match lookup d.product_url with
      | none =>
        let out := enrichGo lookup rest lookups maxLookups
        (d :: out.1, out.2.1, d.product_url :: out.2.2)
      | some det =>
        let out := enrichGo lookup rest (lookups + 1) maxLookups
        (applyDetails d det :: out.1, out.2.1, d.product_url :: out.2.2)

/-- Model of `scraper.enrich_missing_fields` (counter starts at 0). -/
def enrich_missing_fields (lookup : String → Option Details) (deals : List Deal)
    (maxLookups : ℕ) : List Deal × ℕ × List String :=
  enrichGo lookup deals 0 maxLookups

/-- The frame property of one enrichment step: identity fields are
untouched and every populated (non-blank) field keeps its value. -/
def preservesPopulated (d d' : Deal) : Prop :=
  d'.asin = d.asin ∧ d'.product_url = d.product_url ∧
  d'.category = d.category ∧ d'.limited_time = d.limited_time ∧
  (blankStr d.title = false → d'.title = d.title) ∧
  (blankStr d.image_url = false → d'.image_url = d.image_url) ∧
  (∀ q, d.deal_price = some q → d'.deal_price = some q) ∧
  (∀ q, d.original_price = some q → d'.original_price = some q) ∧
  (∀ z, d.discount = some z → d'.discount = some z)

theorem preservesPopulated_refl (d : Deal) : preservesPopulated d d := by
  refine ⟨rfl, rfl, rfl, rfl, fun _ => rfl, fun _ => rfl, ?_, ?_, ?_⟩ <;>
    exact fun _ h => h

theorem preservesPopulated_applyDetails (d : Deal) (det : Details) :
    preservesPopulated d (applyDetails d det) := by
  refine ⟨rfl, rfl, rfl, rfl, ?_, ?_, ?_, ?_, ?_⟩
  · intro hb
    simp [applyDetails, fillStr, hb]
  · intro hb
    simp [applyDetails, fillStr, hb]
  · intro q hq
    simp [applyDetails, fillQ, hq]
  · intro q hq
    simp [applyDetails, fillQ, hq]
  · intro z hz
    simp [applyDetails, fillZ, hz]

theorem zip_self_fst_eq_snd {α : Type} :
    ∀ (l : List α) (p : α × α), p ∈ l.zip l → p.1 = p.2 := by
  intro l
  induction l with
  | nil => intro p hp; simp at hp
  | cons a l ih =>
    intro p hp
    rw [List.zip_cons_cons, List.mem_cons] at hp
    rcases hp with h | h
    · rw [h]
    · exact ih p h

theorem enrichGo_spec (lookup : String → Option Details) (maxLookups : ℕ) :
    ∀ (deals : List Deal) (lookups : ℕ), lookups ≤ maxLookups →
    (enrichGo lookup deals lookups maxLookups).1.length = deals.length ∧
    (∀ p ∈ deals.zip (enrichGo lookup deals lookups maxLookups).1,
      preservesPopulated p.1 p.2) ∧
    (enrichGo lookup deals lookups maxLookups).2.1 ≤ maxLookups ∧
    (∀ u ∈ (enrichGo lookup deals lookups maxLookups).2.2,
      ∃ d ∈ deals, needsLookup d = true ∧ u = d.product_url) := by
  intro deals
  induction deals with
  | nil =>
    intro lookups hle
    refine ⟨rfl, ?_, hle, ?_⟩ <;> intro p hp <;> simp [enrichGo] at hp
  | cons d rest ih =>
    intro lookups hle
    by_cases hstop : maxLookups ≤ lookups
    · have hout : enrichGo lookup (d :: rest) lookups maxLookups =
          (d :: rest, lookups, []) := by
        simp [enrichGo, hstop]
      rw [hout]
      refine ⟨rfl, ?_, hle, ?_⟩
      · intro p hp
        have := zip_self_fst_eq_snd (d :: rest) p hp
        rw [← this]
        exact preservesPopulated_refl p.1
      · intro u hu
        simp at hu
    · by_cases hneed : needsLookup d = true
      · cases hlk : lookup d.product_url with
        | none =>
          have hout : enrichGo lookup (d :: rest) lookups maxLookups =
              ((d :: (enrichGo lookup rest lookups maxLookups).1,
                (enrichGo lookup rest lookups maxLookups).2.1,
                d.product_url :: (enrichGo lookup rest lookups maxLookups).2.2)) := by
            simp [enrichGo, hstop, hneed, hlk]
          obtain ⟨ihlen, ihpres, ihcnt, ihurl⟩ := ih lookups hle
          rw [hout]
          refine ⟨by simp [ihlen], ?_, ihcnt, ?_⟩
          · intro p hp
            rw [List.zip_cons_cons, List.mem_cons] at hp
            rcases hp with h | h
            · rw [h]
              exact preservesPopulated_refl d
            · exact ihpres p h
          · intro u hu
            rcases List.mem_cons.mp hu with h | h
            · exact ⟨d, List.mem_cons_self _ _, hneed, h⟩
            · obtain ⟨d', hd', hn', hu'⟩ := ihurl u h
              exact ⟨d', List.mem_cons_of_mem _ hd', hn', hu'⟩
        | some det =>
          have hle' : lookups + 1 ≤ maxLookups := by omega
          have hout : enrichGo lookup (d :: rest) lookups maxLookups =
              ((applyDetails d det :: (enrichGo lookup rest (lookups + 1) maxLookups).1,
                (enrichGo lookup rest (lookups + 1) maxLookups).2.1,
                d.product_url :: (enrichGo lookup rest (lookups + 1) maxLookups).2.2)) := by
            simp [enrichGo, hstop, hneed, hlk]
          obtain ⟨ihlen, ihpres, ihcnt, ihurl⟩ := ih (lookups + 1) hle'
          rw [hout]
          refine ⟨by simp [ihlen], ?_, ihcnt, ?_⟩
          · intro p hp
            rw [List.zip_cons_cons, List.mem_cons] at hp
            rcases hp with h | h
            · rw [h]
              exact preservesPopulated_applyDetails d det
            · exact ihpres p h
          · intro u hu
            rcases List.mem_cons.mp hu with h | h
            · exact ⟨d, List.mem_cons_self _ _, hneed, h⟩
            · obtain ⟨d', hd', hn', hu'⟩ := ihurl u h
              exact ⟨d', List.mem_cons_of_mem _ hd', hn', hu'⟩
      · have hneed' : needsLookup d = false := by
          cases h : needsLookup d
          · rfl
          · exact absurd h hneed
        have hout : enrichGo lookup (d :: rest) lookups maxLookups =
            ((d :: (enrichGo lookup rest lookups maxLookups).1,
              (enrichGo lookup rest lookups maxLookups).2)) := by
          simp [enrichGo, hstop, hneed']
        obtain ⟨ihlen, ihpres, ihcnt, ihurl⟩ := ih lookups hle
        rw [hout]
        refine ⟨by simp [ihlen], ?_, ihcnt, ?_⟩
        · intro p hp
          rw [List.zip_cons_cons, List.mem_cons] at hp
          rcases hp with h | h
          · rw [h]
            exact preservesPopulated_refl d
          · exact ihpres p h
        · intro u hu
          obtain ⟨d', hd', hn', hu'⟩ := ihurl u hu
          exact ⟨d', List.mem_cons_of_mem _ hd', hn', hu'⟩

/-- A candidate missing both prices and the discount (qualifies for a
lookup). -/
def bareDeal (a : String) : Deal :=
  { asin := a, title := some "Item", product_url := canonical_product_url a,
    image_url := none, deal_price := none, original_price := none,
    discount := none, category := some "Beauty", limited_time := false }

/-- C9 counterexample: with `maxLookups = 1` and two qualifying candidates
whose product-page lookups fail, `enrich_missing_fields` performs **2**
detail-page fetches — the fetch count is not capped by `maxLookups`
because a failed lookup does not advance the counter. -/
theorem C9_counterexample_failed_lookups_uncounted :
    ((enrich_missing_fields (fun _ => none)
        [bareDeal "B000000003", bareDeal "B000000004"] 1).2.2).length = 2 ∧
      (1 : ℕ) < 2 := by
  exact ⟨by decide, by decide⟩

/-- C9 (amended): `enrich_missing_fields` never changes an already
populated field (and leaves identity fields untouched), fetches only
candidates missing price or discount data, and advances the lookup
counter — which counts *successful* lookups — to at most `maxLookups`;
the number of fetch attempts themselves is not capped, since a failed
fetch does not advance the counter. -/
theorem C9_enrich_frame_amended (lookup : String → Option Details)
    (deals : List Deal) (maxLookups : ℕ) :
    (enrich_missing_fields lookup deals maxLookups).1.length = deals.length ∧
    (∀ p ∈ deals.zip (enrich_missing_fields lookup deals maxLookups).1,
      preservesPopulated p.1 p.2) ∧
    (enrich_missing_fields lookup deals maxLookups).2.1 ≤ maxLookups ∧
    (∀ u ∈ (enrich_missing_fields lookup deals maxLookups).2.2,
      ∃ d ∈ deals, needsLookup d = true ∧ u = d.product_url) :=
  enrichGo_spec lookup maxLookups deals 0 (Nat.zero_le _)

/-- Witness for C9 (amended): the successful-lookup counter stays within
the budget on a concrete run. -/
theorem C9_enrich_frame_amended_witness :
    (enrich_missing_fields (fun _ => none)
        [bareDeal "B000000003", bareDeal "B000000004"] 1).2.1 ≤ 1 :=
  (C9_enrich_frame_amended (fun _ => none)
    [bareDeal "B000000003", bareDeal "B000000004"] 1).2.2.1

end AmazonBot
